import Mathlib

/-!
Verification of the gata-data-prep dataset-preparation pipeline.

The Python sources are shallowly embedded as Lean definitions:

* `dataset.filter`, `dataset.find_threshold`, `dataset.update_label`
  embed `src/dataset.py`;
* `utils.count_labels` embeds `src/utils.py`;
* the `prepare` namespace embeds the orchestration in `prepare.py` `main`.

A pandas DataFrame of ticket records is modelled as a `List Ticket`
(respectively `List Row` where the mixed string/integer label typing of
the source matters).  Rational numbers stand in for Python floats: every
quantity compared in the source (relative label frequencies, thresholds,
split fractions) is a ratio of integers, so this is exact.
-/

/-- One ticket record as fetched by `tickets.get_tickets`:
`SELECT id, processed_data AS text, closed_group_id_mapped AS label`.
The database returns the label as an integer (`longValue`). -/
structure Ticket where
  id : Int
  text : String
  label : Int
deriving DecidableEq, Repr

/-- Number of records in `df` carrying label `l`
(pandas `(df["label"] == l).sum()`, the count behind `value_counts`). -/
def countLabel (df : List Ticket) (l : Int) : Nat :=
  df.countP (fun r => decide (r.label = l))

/-- The distinct labels occurring in `df`, in first-occurrence order
(the index set of pandas `value_counts`). -/
def distinctLabels (df : List Ticket) : List Int :=
  (df.map (fun r => r.label)).dedup

namespace dataset

/-- Embeds `dataset.filter`:
`return df[df["label"].isin(labels)]`. -/
def filter (df : List Ticket) (labels : List Int) : List Ticket :=
  df.filter (fun r => decide (r.label ∈ labels))

/-- Embeds `dataset.find_threshold`:
`label_counts = df["label"].value_counts(normalize=True)`,
`low_volume_labels = label_counts[label_counts < threshold]`,
`values = low_volume_labels.index.tolist(); values.sort(); return values`.
`value_counts(normalize=True)` assigns each label the ratio of its count
to the total row count; `mkRat count total` is exactly that ratio (see
`freq_eq_div` below for the equality with cast division).  The final
`sort()` orders the surviving labels ascending. -/
def find_threshold (df : List Ticket) (threshold : ℚ) : List Int :=
  List.insertionSort (· ≤ ·)
    ((distinctLabels df).filter
      (fun l => decide (mkRat (countLabel df l) df.length < threshold)))

/-- Embeds `dataset.update_label` specialised to integer labels, the shape
the orchestrator feeds it (labels arrive from the database as integers):
`substitute_label(x) = new_label if x in old_labels else int(x)`, and
`int(x)` is the identity on an `int`. -/
def update_label_int (df : List Ticket) (old_labels : List Int) (new_label : Int) :
    List Ticket :=
  df.map (fun r =>
    if r.label ∈ old_labels then { r with label := new_label } else r)

end dataset

/-- A Python label value as it appears in a DataFrame column that mixes
string-typed and integer-typed labels (see spec §9, "Implicit type
coercion between string- and integer-valued labels"). -/
inductive PyVal where
  | vstr (s : String)
  | vint (n : Int)
deriving DecidableEq, Repr

/-- Python `==` between two label values: values of different types
compare unequal, values of the same type compare by value. -/
def pyEq : PyVal → PyVal → Bool
  | .vstr a, .vstr b => a == b
  | .vint a, .vint b => a == b
  | _, _ => false

/-- Python `x in xs` for a list: membership via `==`. -/
def pyMem (x : PyVal) (xs : List PyVal) : Bool :=
  xs.any (fun y => pyEq x y)

/-- Numeric value of a digit string (most significant digit first). -/
def digitsToNat (cs : List Char) : Nat :=
  cs.foldl (fun acc c => 10 * acc + (c.toNat - 48)) 0

/-- Parses a non-empty all-digit character list, else fails. -/
def parseDigits (cs : List Char) : Option Nat :=
  if cs.isEmpty then none
  else if cs.all Char.isDigit then some (digitsToNat cs)
  else none

/-- Models Python `int(x)` on a label value: the identity on an `int`,
and on a string an optionally signed digit string parsed as an integer;
anything else raises `ValueError`, modelled as `none`. -/
def pyIntParse : PyVal → Option Int
  | .vint n => some n
  | .vstr s =>
    match s.toList with
    | '-' :: rest => (parseDigits rest).map (fun n => -(n : Int))
    | '+' :: rest => (parseDigits rest).map (fun n => (n : Int))
    | cs => (parseDigits cs).map (fun n => (n : Int))

/-- One record of a DataFrame whose label column may mix string and
integer values, as in the unit-test fixtures of the repository. -/
structure Row where
  id : Int
  text : String
  label : PyVal
deriving DecidableEq, Repr

namespace dataset

/-- Embeds the inner function of `dataset.update_label`:
`substitute_label(x) = new_label if x in old_labels else int(x)`;
the `int(x)` call can raise, modelled as `none`. -/
def substitute_label (old_labels : List PyVal) (new_label : Int) (x : PyVal) :
    Option Int :=
  if pyMem x old_labels then some new_label else pyIntParse x

/-- Embeds `dataset.update_label`:
`df["label"] = df["label"].apply(substitute_label)`.  The elementwise
`apply` rewrites every label in order and propagates the first
`ValueError` raised by `int(x)`, leaving ids and texts untouched. -/
def update_label : List Row → List PyVal → Int → Option (List Row)
  | [], _, _ => some []
  | r :: rs, old_labels, new_label =>
    match substitute_label old_labels new_label r.label,
        update_label rs old_labels new_label with
    | some lab, some rest => some ({ r with label := .vint lab } :: rest)
    | _, _ => none

/-- Test allotment for one label class: the share `test_size` of the
class's `c` rows, rounded up to a whole row. -/
def testCount (test_size : ℚ) (c : Nat) : Nat :=
  ⌈test_size * (c : ℚ)⌉₊

/-- The rows of `df` grouped by label class, one group per distinct
label. -/
def groups (df : List Ticket) : List (List Ticket) :=
  (List.insertionSort (· ≤ ·) (distinctLabels df)).map
    (fun l => df.filter (fun r => decide (r.label = l)))

/-- Modelled from the spec: `dataset.split` delegates the entire
stratified split to `sklearn.model_selection.train_test_split`
(`stratify=df["label"], random_state=42`), which is external to this
repository.  Following spec §4.4, the rows of each label class are
partitioned separately so that each class contributes its proportional
share to the test partition; the fixed-seed shuffle is modelled as the
identity permutation on each class's rows, and the per-class test
allotment as `testCount`. -/
def split (df : List Ticket) (test_size : ℚ) : List Ticket × List Ticket :=
  (((groups df).map (fun rs => rs.drop (testCount test_size rs.length))).flatten,
   ((groups df).map (fun rs => rs.take (testCount test_size rs.length))).flatten)

end dataset

namespace utils

/-- Embeds `utils.count_labels`:
`counts = df["label"].value_counts()` (one entry per distinct label),
`groups = pd.DataFrame({"label": counts.index, "count": counts.values})`,
`groups.sort_values("label", inplace=True)` (ascending by label).
The result is the list of `(Label, Count)` rows in that final order. -/
def count_labels (df : List Ticket) : List (Int × Nat) :=
  (List.insertionSort (· ≤ ·) (distinctLabels df)).map
    (fun l => (l, countLabel df l))

end utils

namespace prepare

/-- Constant `TEST_SPLIT = 0.1` of `prepare.py`. -/
def TEST_SPLIT : ℚ := mkRat 1 10

/-- Constant `LOW_VOLUME_MIN_COUNT = 10` of `prepare.py`. -/
def LOW_VOLUME_MIN_COUNT : Nat := 10

/-- Embeds the lookup
`int(label_counts.loc[label_counts["Label"] == label]["Count"].iloc[0])`
on a label-statistics table: the count column of the first matching row. -/
def lookupCount (table : List (Int × Nat)) (l : Int) : Nat :=
  ((table.filter (fun p => decide (p.1 = l))).map (fun p => p.2)).headD 0

/-- Embeds the counting loop of `prepare.py` lines 69-75: the number of
low-volume labels whose count in the label-statistics table is at least
`LOW_VOLUME_MIN_COUNT`. -/
def large_enough (general : List Ticket) (threshold : ℚ) : Nat :=
  (dataset.find_threshold general threshold).countP
    (fun l =>
      decide (LOW_VOLUME_MIN_COUNT ≤ lookupCount (utils.count_labels general) l))

/-- Embeds `create_low_volume = large_enough >= 2` (`prepare.py` line 78). -/
def create_low_volume (general : List Ticket) (threshold : ℚ) : Bool :=
  decide (2 ≤ large_enough general threshold)

/-- Embeds `prepare.py` lines 77-83: `low_volume_label_id = 0`,
reassigned to `LOW_VOLUME_FALLBACK_LABEL` only when no low-volume
dataset will be created. -/
def low_volume_label_id (general : List Ticket) (threshold : ℚ) (fallback : Int) :
    Int :=
  if create_low_volume general threshold then 0 else fallback

/-- Embeds `prepare.py` lines 94-96: the primary frame after
`general_df = dataset.update_label(general_df, low_volume_labels,
low_volume_label_id)`.  `update_label` mutates `general_df` in place, so
this is the value of `general_df` from line 96 onwards. -/
def primaryFrame (general : List Ticket) (threshold : ℚ) (fallback : Int) :
    List Ticket :=
  dataset.update_label_int general (dataset.find_threshold general threshold)
    (low_volume_label_id general threshold fallback)

/-- Embeds `prepare.py` line 125:
`low_vol_df = dataset.filter(general_df, low_volume_labels)` — note that
`general_df` here is the already-remapped frame of line 94. -/
def lowVolFrame (general : List Ticket) (threshold : ℚ) (fallback : Int) :
    List Ticket :=
  dataset.filter (primaryFrame general threshold fallback)
    (dataset.find_threshold general threshold)

/-- Embeds `prepare.py` lines 134-140: the low-volume frame concatenated
with the extended-history fetch (`pd.concat`, low-volume frame first). -/
def mergedLowVol (general extended : List Ticket) (threshold : ℚ)
    (fallback : Int) : List Ticket :=
  lowVolFrame general threshold fallback ++ extended

/-- Embeds `prepare.py` line 149:
`low_vol_df = low_vol_df[low_vol_df["label"] >= 10]`. -/
def mergedFiltered (general extended : List Ticket) (threshold : ℚ)
    (fallback : Int) : List Ticket :=
  (mergedLowVol general extended threshold fallback).filter
    (fun r => decide ((10 : Int) ≤ r.label))

/-- Outcome of one batch run of `main`: whether the run terminated early
with no data, and the emitted primary and secondary partition pairs. -/
structure PrepResult where
  noData : Bool
  primary : Option (List Ticket × List Ticket)
  secondary : Option (List Ticket × List Ticket)
deriving DecidableEq, Repr

/-- Embeds the dataset-construction path of `main` (`prepare.py` lines
62-165), with the two fetches supplied as inputs: early return on an
empty primary fetch; remap and split of the primary frame; and, only
when `create_low_volume` holds, the secondary path with its own early
return on an empty merged frame. -/
def run (general extended : List Ticket) (threshold : ℚ) (fallback : Int) :
    PrepResult :=
  if general.isEmpty then ⟨true, none, none⟩
  else
    let pr := dataset.split (primaryFrame general threshold fallback) TEST_SPLIT
    if create_low_volume general threshold then
      if (mergedLowVol general extended threshold fallback).isEmpty then
        ⟨false, some pr, none⟩
      else
        ⟨false, some pr,
          some (dataset.split (mergedFiltered general extended threshold fallback)
            TEST_SPLIT)⟩
    else ⟨false, some pr, none⟩

/-- Data-access actions performed by `main` after validation:
`utils.load_secret`, the `DbClient` connection priming, and the
paginated `tickets.get_tickets` queries. -/
inductive Event where
  | secretLoad
  | dbConnect
  | fetchTickets
deriving DecidableEq, Repr

/-- Embeds `main` including its input validation (`prepare.py` lines
49-50): a batch id failing
`len(batch_id) != 10 or not batch_id.isdigit()` raises `ValueError`
before the secret load, the database connection and any query; the
returned event list records which data-access actions were performed. -/
def mainRun (batch_id : String) (general extended : List Ticket)
    (threshold : ℚ) (fallback : Int) : List Event × Except String PrepResult :=
  if batch_id.length ≠ 10 ∨ ¬(batch_id.all Char.isDigit = true) then
    ([], .error "batch_id must be in YYYYMMDDHH format")
  else
    ([.secretLoad, .dbConnect, .fetchTickets],
      .ok (run general extended threshold fallback))

end prepare

/-- One ticket with empty text and id 0, used for concrete runs. -/
def tk (l : Int) : Ticket := ⟨0, "", l⟩

/-- A concrete viable primary fetch: labels 1 and 2 with ten records
each, label 3 with twenty-five.  At threshold 1/2 the low-volume labels
are 1 and 2, both with at least ten records, so the secondary dataset is
viable. -/
def genEx : List Ticket :=
  List.replicate 10 (tk 1) ++ List.replicate 10 (tk 2) ++ List.replicate 25 (tk 3)

/-- A concrete extended-history fetch: twelve records of label 3, eleven
of label 20 and three of label 50. -/
def extEx : List Ticket :=
  List.replicate 12 (tk 3) ++ List.replicate 11 (tk 20) ++ List.replicate 3 (tk 50)

/-- The threshold used in the concrete runs. -/
def thrEx : ℚ := mkRat 1 2

/-- The normalized frequency used in `find_threshold` is exactly the
count-to-total ratio written as a cast division. -/
theorem freq_eq_div (df : List Ticket) (l : Int) :
    mkRat (countLabel df l) df.length
      = (countLabel df l : ℚ) / (df.length : ℚ) := by
  rw [Rat.mkRat_eq_divInt, Rat.divInt_eq_div]
  push_cast
  rfl

/-- Membership in `find_threshold`: exactly the labels present in `df`
whose normalized frequency is strictly below the threshold. -/
theorem mem_find_threshold (df : List Ticket) (t : ℚ) (l : Int) :
    l ∈ dataset.find_threshold df t ↔
      l ∈ df.map (fun r => r.label) ∧
        (countLabel df l : ℚ) / (df.length : ℚ) < t := by
  rw [dataset.find_threshold, List.mem_insertionSort, List.mem_filter,
    distinctLabels, List.mem_dedup, decide_eq_true_eq, freq_eq_div]

/-- A label's count equals the multiset count of that label in the label
column. -/
theorem countLabel_eq_count (df : List Ticket) (l : Int) :
    countLabel df l = (df.map (fun r => r.label)).count l := by
  rw [countLabel, List.count, List.countP_map]
  refine List.countP_congr (fun r _ => ?_)
  simp [Function.comp]

/-- The projection of `count_labels` onto its label column is the sorted
deduplicated label list. -/
theorem count_labels_fst (df : List Ticket) :
    (utils.count_labels df).map Prod.fst
      = List.insertionSort (· ≤ ·) (distinctLabels df) := by
  rw [utils.count_labels, List.map_map]
  exact List.map_id' _

/-- C5: for every record set R and threshold t, find_threshold(R, t)
returns the list of exactly those labels whose relative frequency in R
is strictly less than t, sorted ascending; labels at or above t are
excluded, and an empty input yields an empty result. -/
theorem C5_find_threshold_spec (df : List Ticket) (t : ℚ) :
    List.Sorted (· ≤ ·) (dataset.find_threshold df t) ∧
    (∀ l : Int, l ∈ dataset.find_threshold df t ↔
      l ∈ df.map (fun r => r.label) ∧
        (countLabel df l : ℚ) / (df.length : ℚ) < t) ∧
    dataset.find_threshold ([] : List Ticket) t = [] := by
  refine ⟨List.sorted_insertionSort _ _, fun l => mem_find_threshold df t l, rfl⟩

/-- C8: for every record set R, count_labels(R) has one row per distinct
label of R, its counts sum to len(R), its rows are ordered by label
ascending, and an empty input yields an empty table. -/
theorem C8_count_labels_spec (df : List Ticket) :
    ((utils.count_labels df).map Prod.snd).sum = df.length ∧
    List.Sorted (· ≤ ·) ((utils.count_labels df).map Prod.fst) ∧
    ((utils.count_labels df).map Prod.fst).Nodup ∧
    (∀ l : Int, l ∈ (utils.count_labels df).map Prod.fst ↔
      l ∈ df.map (fun r => r.label)) ∧
    (∀ p ∈ utils.count_labels df, p.2 = countLabel df p.1) ∧
    utils.count_labels ([] : List Ticket) = [] := by
  have hperm : List.Perm (List.insertionSort (· ≤ ·) (distinctLabels df))
      (distinctLabels df) := List.perm_insertionSort _ _
  refine ⟨?_, ?_, ?_, ?_, ?_, rfl⟩
  · have : (utils.count_labels df).map Prod.snd
        = (List.insertionSort (· ≤ ·) (distinctLabels df)).map
            (fun l => countLabel df l) := by
      rw [utils.count_labels, List.map_map]; rfl
    rw [this, (hperm.map (fun l => countLabel df l)).sum_eq]
    have : (distinctLabels df).map (fun l => countLabel df l)
        = ((df.map (fun r => r.label)).dedup).map
            (fun l => (df.map (fun r => r.label)).count l) := by
      rw [distinctLabels]
      exact List.map_congr_left (fun l _ => countLabel_eq_count df l)
    rw [this, List.sum_map_count_dedup_eq_length, List.length_map]
  · rw [count_labels_fst]
    exact List.sorted_insertionSort _ _
  · rw [count_labels_fst]
    exact hperm.nodup_iff.mpr (List.nodup_dedup _)
  · intro l
    rw [count_labels_fst, hperm.mem_iff, distinctLabels, List.mem_dedup]
  · intro p hp
    rw [utils.count_labels, List.mem_map] at hp
    obtain ⟨l, -, rfl⟩ := hp
    rfl

/-- C10: update_label(R, L, v) raises an error if and only if some record
of R has a label that is not a member of L and whose value cannot be
parsed as an integer; consequently, when every label outside L is an
integer or a digit string, the error branch is unreachable. -/
theorem C10_update_label_error_iff (rows : List Row) (L : List PyVal) (v : Int) :
    dataset.update_label rows L v = none ↔
      ∃ r ∈ rows, pyMem r.label L = false ∧ pyIntParse r.label = none := by
  induction rows with
  | nil => simp [dataset.update_label]
  | cons r rs ih =>
    rw [dataset.update_label]
    by_cases hm : pyMem r.label L
    · have hs : dataset.substitute_label L v r.label = some v := by
        rw [dataset.substitute_label, if_pos hm]
      rw [hs]
      cases hrest : dataset.update_label rs L v with
      | none =>
        constructor
        · intro _
          obtain ⟨x, hx, hxp⟩ := ih.mp hrest
          exact ⟨x, List.mem_cons_of_mem r hx, hxp⟩
        · intro _
          rfl
      | some rest =>
        constructor
        · intro h
          exact Option.noConfusion h
        · rintro ⟨x, hx, hxm, hxp⟩
          rcases List.mem_cons.mp hx with rfl | hx'
          · rw [hm] at hxm
            cases hxm
          · rw [ih.mpr ⟨x, hx', hxm, hxp⟩] at hrest
            cases hrest
    · have hm' : pyMem r.label L = false := by
        revert hm
        cases pyMem r.label L <;> simp
      cases hp : pyIntParse r.label with
      | none =>
        have hs : dataset.substitute_label L v r.label = none := by
          rw [dataset.substitute_label, if_neg hm, hp]
        rw [hs]
        cases hrest : dataset.update_label rs L v with
        | none => exact ⟨fun _ => ⟨r, List.mem_cons_self r rs, hm', hp⟩, fun _ => rfl⟩
        | some rest => exact ⟨fun _ => ⟨r, List.mem_cons_self r rs, hm', hp⟩, fun _ => rfl⟩
      | some n =>
        have hs : dataset.substitute_label L v r.label = some n := by
          rw [dataset.substitute_label, if_neg hm, hp]
        rw [hs]
        cases hrest : dataset.update_label rs L v with
        | none =>
          constructor
          · intro _
            obtain ⟨x, hx, hxp⟩ := ih.mp hrest
            exact ⟨x, List.mem_cons_of_mem r hx, hxp⟩
          · intro _
            rfl
        | some rest =>
          constructor
          · intro h
            exact Option.noConfusion h
          · rintro ⟨x, hx, hxm, hxp⟩
            rcases List.mem_cons.mp hx with rfl | hx'
            · rw [hp] at hxp
              cases hxp
            · rw [ih.mpr ⟨x, hx', hxm, hxp⟩] at hrest
              cases hrest
/-- Per-record relation between an input record and the corresponding
output record of `update_label`: id and text untouched; a label in the
old-label list becomes the new label, any other label keeps its numeric
value in integer representation. -/
def UpdatedRow (L : List PyVal) (v : Int) (r r2 : Row) : Prop :=
  r2.id = r.id ∧ r2.text = r.text ∧
  (pyMem r.label L = true → r2.label = PyVal.vint v) ∧
  (pyMem r.label L = false →
    ∃ n, pyIntParse r.label = some n ∧ r2.label = PyVal.vint n)

/-- C7: after update_label(R, L, v), every record whose original label
was a member of L has label v, every other record retains a semantically
equal label value normalized to the integer representation, and the
number of records is unchanged. -/
theorem C7_update_label_spec (rows : List Row) (L : List PyVal) (v : Int)
    (h : ∀ r ∈ rows, pyMem r.label L = false → (pyIntParse r.label).isSome = true) :
    ∃ rows2, dataset.update_label rows L v = some rows2 ∧
      rows2.length = rows.length ∧ List.Forall₂ (UpdatedRow L v) rows rows2 := by
  induction rows with
  | nil => exact ⟨[], rfl, rfl, List.Forall₂.nil⟩
  | cons r rs ih =>
    obtain ⟨rest, hrest, hlen, hfa⟩ := ih (fun x hx => h x (List.mem_cons_of_mem r hx))
    by_cases hm : pyMem r.label L
    · refine ⟨{ r with label := .vint v } :: rest, ?_, by simp [hlen], ?_⟩
      · have hs : dataset.substitute_label L v r.label = some v := by
          rw [dataset.substitute_label, if_pos hm]
        rw [dataset.update_label, hs, hrest]
      · refine List.Forall₂.cons ⟨rfl, rfl, fun _ => rfl, fun hf => ?_⟩ hfa
        rw [hm] at hf
        cases hf
    · have hm' : pyMem r.label L = false := by
        revert hm
        cases pyMem r.label L <;> simp
      obtain ⟨n, hn⟩ := Option.isSome_iff_exists.mp (h r (List.mem_cons_self r rs) hm')
      refine ⟨{ r with label := .vint n } :: rest, ?_, by simp [hlen], ?_⟩
      · have hs : dataset.substitute_label L v r.label = some n := by
          rw [dataset.substitute_label, if_neg hm, hn]
        rw [dataset.update_label, hs, hrest]
      · refine List.Forall₂.cons ⟨rfl, rfl, fun ht => ?_, fun _ => ⟨n, hn, rfl⟩⟩ hfa
        rw [ht] at hm'
        cases hm'

/-- Concrete record list for the `update_label` witness, mirroring the
unit-test fixture: string labels, two of them to be remapped. -/
def rowsC7 : List Row :=
  [⟨0, "zero", .vstr "0"⟩, ⟨1, "one", .vstr "1"⟩, ⟨2, "four", .vstr "4"⟩]

/-- Labels remapped in the `update_label` witness. -/
def labelsC7 : List PyVal := [.vstr "0", .vstr "1"]

/-- Witness for C7 at a concrete input. -/
theorem C7_update_label_witness :
    (∀ r ∈ rowsC7, pyMem r.label labelsC7 = false →
      (pyIntParse r.label).isSome = true) ∧
    (∃ rows2, dataset.update_label rowsC7 labelsC7 99 = some rows2 ∧
      rows2.length = rowsC7.length ∧
      List.Forall₂ (UpdatedRow labelsC7 99) rowsC7 rows2) :=
  ⟨by decide, C7_update_label_spec rowsC7 labelsC7 99 (by decide)⟩

/-- C9: a batch identifier that is not exactly 10 characters long or
contains a non-digit character makes the program raise an
input-validation error before any data access is attempted: no secret
retrieval, no database connection, no query. -/
theorem C9_batch_validation (s : String) (general extended : List Ticket)
    (t : ℚ) (fallback : Int)
    (h : s.length ≠ 10 ∨ ¬(s.all Char.isDigit = true)) :
    prepare.mainRun s general extended t fallback
      = ([], Except.error "batch_id must be in YYYYMMDDHH format") := by
  unfold prepare.mainRun
  rw [if_pos h]

/-- Witness for C9 at the concrete malformed batch id of the spec
scenario. -/
theorem C9_batch_validation_witness :
    (("0" : String).length ≠ 10 ∨ ¬(("0" : String).all Char.isDigit = true)) ∧
    prepare.mainRun "0" [] [] thrEx 7
      = ([], Except.error "batch_id must be in YYYYMMDDHH format") :=
  ⟨by decide, C9_batch_validation "0" [] [] thrEx 7 (by decide)⟩

/-- C3 counterexample: a viable run (two low-volume labels with ten
records each) with the fallback label configured as 7 remaps the
low-volume labels of the primary set to 0, not to the fallback: the
first record of the remapped primary frame, originally labelled 1 (a
low-volume label), carries label 0. -/
theorem C3_remap_target_counterexample :
    prepare.create_low_volume genEx thrEx = true ∧
    prepare.low_volume_label_id genEx thrEx 7 = 0 ∧
    ((prepare.primaryFrame genEx thrEx 7).head?.map (fun r => r.label)
      = some 0) ∧
    (0 : Int) ≠ 7 := by decide

/-- C3 amended: the value to which `update_label` remaps the low-volume
labels of the primary set is the configured fallback label id exactly in
the non-viable case; in the viable case it is the constant 0. -/
theorem C3_remap_target_amended (general : List Ticket) (t : ℚ)
    (fallback : Int) (i : Nat) :
    (prepare.primaryFrame general t fallback)[i]? =
      (general[i]?).map (fun r =>
        if r.label ∈ dataset.find_threshold general t then
          { r with label :=
              if prepare.create_low_volume general t then 0 else fallback }
        else r) := by
  simp only [prepare.primaryFrame, dataset.update_label_int,
    prepare.low_volume_label_id, List.getElem?_map]

/-- C1 evaluation at the failing input: in a viable run the merged
low-volume frame holds twelve records of label 3 (count 12 ≥ 10, so the
claim keeps them) and three records of label 50 (count 3 < 10, so the
claim drops them), yet line 149 keeps exactly the rows whose label VALUE
is at least 10: every label-3 row is dropped and every label-50 row is
kept. -/
theorem C1_min_count_filter_eval :
    prepare.create_low_volume genEx thrEx = true ∧
    countLabel (prepare.mergedLowVol genEx extEx thrEx 7) 3 = 12 ∧
    countLabel (prepare.mergedLowVol genEx extEx thrEx 7) 50 = 3 ∧
    prepare.mergedFiltered genEx extEx thrEx 7
      = List.replicate 11 (tk 20) ++ List.replicate 3 (tk 50) := by decide

/-- C2 evaluation at the failing input: in a viable run twenty
primary-window records carry an original low-volume label (1 or 2), but
the secondary copy taken at line 125 is empty, because the primary frame
was already remapped in place at line 94 and no remapped record carries
a label in the low-volume list any more. -/
theorem C2_pre_remap_filter_eval :
    prepare.create_low_volume genEx thrEx = true ∧
    dataset.find_threshold genEx thrEx = [1, 2] ∧
    (genEx.filter (fun r =>
      decide (r.label ∈ dataset.find_threshold genEx thrEx))).length = 20 ∧
    prepare.lowVolFrame genEx thrEx 7 = [] := by decide

/-- Looking a label up in a table that pairs each key with `c key`
returns `c` of that label, provided the label occurs among the keys. -/
theorem lookup_aux (l : Int) (c : Int → Nat) (ks : List Int) (h : l ∈ ks) :
    prepare.lookupCount (ks.map (fun k => (k, c k))) l = c l := by
  induction ks with
  | nil => cases h
  | cons k ks ih =>
    by_cases hk : k = l
    · subst hk
      simp [prepare.lookupCount, List.filter_cons]
    · have hl' : l ∈ ks := by
        rcases List.mem_cons.mp h with rfl | hl'
        · exact absurd rfl hk
        · exact hl'
      simpa [prepare.lookupCount, List.filter_cons, hk] using ih hl'

/-- The `.loc`-style lookup in the label-statistics table agrees with
the direct label count for every label present in the record set. -/
theorem lookupCount_count_labels (df : List Ticket) (l : Int)
    (hl : l ∈ df.map (fun r => r.label)) :
    prepare.lookupCount (utils.count_labels df) l = countLabel df l := by
  have hmem : l ∈ List.insertionSort (· ≤ ·) (distinctLabels df) := by
    rw [List.mem_insertionSort, distinctLabels, List.mem_dedup]
    exact hl
  exact lookup_aux l (fun k => countLabel df k) _ hmem

/-- C4: for a non-empty primary record set, the secondary low-volume
dataset is viable if and only if at least 2 of the low-volume labels
have an absolute record count of at least 10 in the primary set; when
fewer than 2 such labels exist, no secondary dataset is produced and
every record with a low-volume label is folded into the configured
fallback label id within the primary frame. -/
theorem C4_secondary_viability (general extended : List Ticket) (t : ℚ)
    (fallback : Int) (h : general ≠ []) :
    (prepare.create_low_volume general t = true ↔
      2 ≤ ((dataset.find_threshold general t).filter
        (fun l => decide (10 ≤ countLabel general l))).length) ∧
    (prepare.create_low_volume general t = false →
      (prepare.run general extended t fallback).secondary = none ∧
      ∀ i : Nat, (prepare.primaryFrame general t fallback)[i]? =
        (general[i]?).map (fun r =>
          if r.label ∈ dataset.find_threshold general t then
            { r with label := fallback }
          else r)) := by
  constructor
  · have hcount : prepare.large_enough general t
        = ((dataset.find_threshold general t).filter
            (fun l => decide (10 ≤ countLabel general l))).length := by
      rw [prepare.large_enough, List.countP_eq_length_filter]
      congr 1
      refine List.filter_congr (fun l hl => ?_)
      have hmem := ((mem_find_threshold general t l).mp hl).1
      rw [lookupCount_count_labels general l hmem]
      rfl
    rw [prepare.create_low_volume, hcount, decide_eq_true_eq]
  · intro hf
    have hempty : general.isEmpty = false := by
      cases general with
      | nil => exact absurd rfl h
      | cons a l => rfl
    constructor
    · simp [prepare.run, hempty, hf]
    · intro i
      simp only [prepare.primaryFrame, dataset.update_label_int,
        prepare.low_volume_label_id, hf, List.getElem?_map,
        Bool.false_eq_true, if_false]

/-- Witness for C4 at the concrete viable run. -/
theorem C4_secondary_viability_witness :
    genEx ≠ [] ∧
    ((prepare.create_low_volume genEx thrEx = true ↔
      2 ≤ ((dataset.find_threshold genEx thrEx).filter
        (fun l => decide (10 ≤ countLabel genEx l))).length) ∧
    (prepare.create_low_volume genEx thrEx = false →
      (prepare.run genEx extEx thrEx 7).secondary = none ∧
      ∀ i : Nat, (prepare.primaryFrame genEx thrEx 7)[i]? =
        (genEx[i]?).map (fun r =>
          if r.label ∈ dataset.find_threshold genEx thrEx then
            { r with label := (7 : Int) }
          else r))) :=
  ⟨by decide, C4_secondary_viability genEx extEx thrEx 7 (by decide)⟩

/-- Partitioning a record list by a duplicate-free key list that covers
every record yields, once flattened, a permutation of the list. -/
theorem flatten_filter_perm (key : Ticket → Int) (ks : List Int) :
    ∀ df : List Ticket, ks.Nodup → (∀ r ∈ df, key r ∈ ks) →
      ((ks.map (fun k => df.filter (fun r => decide (key r = k)))).flatten).Perm
        df := by
  induction ks with
  | nil =>
    intro df _ hcov
    have hdf : df = [] := List.eq_nil_iff_forall_not_mem.mpr
      (fun r hr => absurd (hcov r hr) (List.not_mem_nil _))
    subst hdf
    exact List.Perm.refl _
  | cons k ks ih =>
    intro df hnd hcov
    rw [List.map_cons, List.flatten_cons]
    have hknotin : k ∉ ks := (List.nodup_cons.mp hnd).1
    have hnd' : ks.Nodup := (List.nodup_cons.mp hnd).2
    have hmapeq : ks.map (fun k' => df.filter (fun r => decide (key r = k')))
        = ks.map (fun k' =>
            (df.filter (fun r => !decide (key r = k))).filter
              (fun r => decide (key r = k'))) := by
      refine List.map_congr_left (fun k' hk' => ?_)
      rw [List.filter_filter]
      refine List.filter_congr (fun r _ => ?_)
      by_cases hkr : key r = k'
      · have hne : key r ≠ k := by
          intro he
          exact hknotin (by rw [← he, hkr]; exact hk')
        have hk'k : ¬k' = k := fun e => hknotin (e ▸ hk')
        simp [hkr, hne, hk'k]
      · simp [hkr]
    have hcov2 : ∀ r ∈ df.filter (fun r => !decide (key r = k)), key r ∈ ks := by
      intro r hr
      have h1 := List.mem_filter.mp hr
      have hne : key r ≠ k := by simpa using h1.2
      rcases List.mem_cons.mp (hcov r h1.1) with he | hin
      · exact absurd he hne
      · exact hin
    rw [hmapeq]
    exact ((ih _ hnd' hcov2).append_left _).trans (List.filter_append_perm _ df)

/-- Splitting every block of a flattened list into two pieces that
recombine to the block, then flattening the two piece lists, permutes
the original flattened list. -/
theorem flatten_two_perm (f₁ f₂ : List Ticket → List Ticket)
    (h : ∀ rs : List Ticket, (f₁ rs ++ f₂ rs).Perm rs) :
    ∀ gs : List (List Ticket),
      ((gs.map f₁).flatten ++ (gs.map f₂).flatten).Perm gs.flatten := by
  intro gs
  induction gs with
  | nil => exact List.Perm.refl _
  | cons g gs ih =>
    rw [List.map_cons, List.map_cons, List.flatten_cons, List.flatten_cons,
      List.flatten_cons]
    have hshuffle :
        ((f₁ g ++ (gs.map f₁).flatten) ++ (f₂ g ++ (gs.map f₂).flatten)).Perm
          ((f₁ g ++ f₂ g) ++ ((gs.map f₁).flatten ++ (gs.map f₂).flatten)) := by
      rw [List.append_assoc, List.append_assoc]
      refine List.Perm.append_left (f₁ g) ?_
      rw [← List.append_assoc, ← List.append_assoc]
      exact List.Perm.append_right _ List.perm_append_comm
    exact hshuffle.trans ((h g).append ih)

/-- The label groups of a record set flatten to a permutation of the
set. -/
theorem groups_flatten_perm (df : List Ticket) :
    (dataset.groups df).flatten.Perm df := by
  rw [dataset.groups]
  refine flatten_filter_perm (fun r => r.label) _ df ?_ ?_
  · exact (List.perm_insertionSort _ _).nodup_iff.mpr (List.nodup_dedup _)
  · intro r hr
    rw [List.mem_insertionSort, distinctLabels, List.mem_dedup, List.mem_map]
    exact ⟨r, hr, rfl⟩

/-- Train and test partitions of `split` together permute the input. -/
theorem split_append_perm (df : List Ticket) (f : ℚ) :
    ((dataset.split df f).1 ++ (dataset.split df f).2).Perm df := by
  rw [dataset.split]
  refine (flatten_two_perm _ _ (fun rs => ?_) (dataset.groups df)).trans
    (groups_flatten_perm df)
  have h := @List.perm_append_comm Ticket
    (rs.drop (dataset.testCount f rs.length))
    (rs.take (dataset.testCount f rs.length))
  rwa [List.take_append_drop] at h

/-- The per-class test allotment never exceeds the class size when the
test fraction is at most one. -/
theorem testCount_le (f : ℚ) (hf1 : f ≤ 1) (c : Nat) :
    dataset.testCount f c ≤ c := by
  rw [dataset.testCount, Nat.ceil_le]
  calc f * (c : ℚ) ≤ 1 * (c : ℚ) :=
        mul_le_mul_of_nonneg_right hf1 (Nat.cast_nonneg c)
    _ = (c : ℚ) := one_mul _

/-- The per-class test allotment is the test fraction of the class size
rounded within one row. -/
theorem testCount_bounds (f : ℚ) (hf0 : 0 ≤ f) (c : Nat) :
    f * (c : ℚ) ≤ (dataset.testCount f c : ℚ) ∧
      (dataset.testCount f c : ℚ) < f * (c : ℚ) + 1 := by
  constructor
  · rw [dataset.testCount]
    exact Nat.le_ceil _
  · rw [dataset.testCount]
    exact Nat.ceil_lt_add_one (mul_nonneg hf0 (Nat.cast_nonneg c))

/-- A record in a label group carries that group's label. -/
theorem label_of_mem_group (df : List Ticket) (k : Int) (r : Ticket)
    (hr : r ∈ df.filter (fun r => decide (r.label = k))) : r.label = k := by
  have := (List.mem_filter.mp hr).2
  simpa using this

/-- Summing a map that is `v` at one duplicate-free position and zero
elsewhere gives `v` exactly when the position occurs. -/
theorem sum_map_ite (l : Int) (v : Nat) (ks : List Int) (hnd : ks.Nodup) :
    (ks.map (fun k => if k = l then v else 0)).sum
      = if l ∈ ks then v else 0 := by
  induction ks with
  | nil => rfl
  | cons k ks ih =>
    have hknotin : k ∉ ks := (List.nodup_cons.mp hnd).1
    have hnd' : ks.Nodup := (List.nodup_cons.mp hnd).2
    rw [List.map_cons, List.sum_cons, ih hnd']
    by_cases hk : k = l
    · subst hk
      have hlnot : k ∉ ks := hknotin
      simp [hlnot]
    · have : (l ∈ k :: ks) ↔ l ∈ ks := by
        rw [List.mem_cons]
        exact or_iff_right (fun he => hk he.symm)
      simp only [if_neg hk, Nat.zero_add, this]

/-- Class count of label `l` after applying a per-group piece selector
(take or drop of the test allotment) to every label group and
flattening: the piece length at `l`'s class size when `l` occurs, and
zero rows otherwise. -/
theorem countLabel_piece_flatten (piece : List Ticket → List Ticket)
    (plen : Nat → Nat)
    (hsub : ∀ rs : List Ticket, ∀ a ∈ piece rs, a ∈ rs)
    (hlen : ∀ rs : List Ticket, (piece rs).length = plen rs.length)
    (hzero : plen 0 = 0)
    (df : List Ticket) (l : Int) :
    countLabel (((dataset.groups df).map piece).flatten) l
      = plen (countLabel df l) := by
  set ks := List.insertionSort (· ≤ ·) (distinctLabels df) with hks
  have hnd : ks.Nodup :=
    (List.perm_insertionSort _ _).nodup_iff.mpr (List.nodup_dedup _)
  have h1 : countLabel (((dataset.groups df).map piece).flatten) l
      = ((dataset.groups df).map
          (fun rs => List.countP (fun r => decide (r.label = l)) (piece rs))).sum := by
    rw [countLabel, List.countP_flatten, List.map_map]
    rfl
  have h2 : (dataset.groups df).map
        (fun rs => List.countP (fun r => decide (r.label = l)) (piece rs))
      = ks.map (fun k => if k = l then plen (countLabel df l) else 0) := by
    rw [dataset.groups, ← hks, List.map_map]
    refine List.map_congr_left (fun k hk => ?_)
    show List.countP (fun r => decide (r.label = l))
        (piece (df.filter (fun r => decide (r.label = k)))) = _
    by_cases hkl : k = l
    · subst hkl
      rw [if_pos rfl]
      have hall : ∀ a ∈ piece (df.filter (fun r => decide (r.label = k))),
          decide (a.label = k) = true := by
        intro a ha
        have := label_of_mem_group df k a (hsub _ a ha)
        simpa using this
      rw [List.countP_eq_length.mpr hall, hlen]
      congr 1
      rw [countLabel, List.countP_eq_length_filter]
    · rw [if_neg hkl]
      refine List.countP_eq_zero.mpr (fun a ha => ?_)
      have hak := label_of_mem_group df k a (hsub _ a ha)
      simp [hak, hkl]
  rw [h1, h2, sum_map_ite l _ ks hnd]
  by_cases hl : l ∈ ks
  · rw [if_pos hl]
  · rw [if_neg hl]
    have hc0 : countLabel df l = 0 := by
      rw [countLabel, List.countP_eq_zero]
      intro a ha hdec
      have hal : a.label = l := by simpa using hdec
      refine hl ?_
      rw [hks, List.mem_insertionSort, distinctLabels, List.mem_dedup,
        List.mem_map]
      exact ⟨a, ha, hal⟩
    rw [hc0, hzero]

/-- Each label's row count in the test partition of `split` is the test
allotment of that label's class size. -/
theorem countLabel_split_test (df : List Ticket) (f : ℚ) (hf1 : f ≤ 1)
    (l : Int) :
    countLabel (dataset.split df f).2 l
      = dataset.testCount f (countLabel df l) := by
  have h := countLabel_piece_flatten
    (fun rs => rs.take (dataset.testCount f rs.length))
    (fun c => min (dataset.testCount f c) c)
    (fun rs a ha => List.mem_of_mem_take ha)
    (fun rs => List.length_take _ _)
    (by simp)
    df l
  have h2 : (dataset.split df f).2
      = ((dataset.groups df).map
          (fun rs => rs.take (dataset.testCount f rs.length))).flatten := rfl
  rw [h2, h, min_eq_left (testCount_le f hf1 _)]

/-- Each label's row count in the train partition of `split` is its
class size minus the test allotment. -/
theorem countLabel_split_train (df : List Ticket) (f : ℚ) (l : Int) :
    countLabel (dataset.split df f).1 l
      = countLabel df l - dataset.testCount f (countLabel df l) := by
  have h := countLabel_piece_flatten
    (fun rs => rs.drop (dataset.testCount f rs.length))
    (fun c => c - dataset.testCount f c)
    (fun rs a ha => List.mem_of_mem_drop ha)
    (fun rs => List.length_drop _ _)
    (by simp)
    df l
  have h2 : (dataset.split df f).1
      = ((dataset.groups df).map
          (fun rs => rs.drop (dataset.testCount f rs.length))).flatten := rfl
  rw [h2, h]

/-- C6: for a record set in which every label has at least 2 records and
a test fraction strictly between 0 and 1, split produces partitions that
are disjoint as row-id sets, whose union as a multiset of row ids equals
the input exactly, and whose per-label test and train counts are the
fractions f and 1-f of the label's total within one row of rounding. -/
theorem C6_split_spec (df : List Ticket) (f : ℚ)
    (_hmin : ∀ l ∈ df.map (fun r => r.label), 2 ≤ countLabel df l)
    (hf0 : 0 < f) (hf1 : f < 1)
    (hids : (df.map (fun r => r.id)).Nodup) :
    ((((dataset.split df f).1 ++ (dataset.split df f).2).map
      (fun r => r.id)).Perm (df.map (fun r => r.id))) ∧
    ((dataset.split df f).1.map (fun r => r.id)).Disjoint
      ((dataset.split df f).2.map (fun r => r.id)) ∧
    ∀ l : Int,
      f * (countLabel df l : ℚ) ≤ (countLabel (dataset.split df f).2 l : ℚ) ∧
      (countLabel (dataset.split df f).2 l : ℚ)
        < f * (countLabel df l : ℚ) + 1 ∧
      (1 - f) * (countLabel df l : ℚ) - 1
        < (countLabel (dataset.split df f).1 l : ℚ) ∧
      (countLabel (dataset.split df f).1 l : ℚ)
        ≤ (1 - f) * (countLabel df l : ℚ) := by
  have hperm_id := (split_append_perm df f).map (fun r => r.id)
  refine ⟨hperm_id, ?_, ?_⟩
  · have hnd2 := hperm_id.nodup_iff.mpr hids
    rw [List.map_append] at hnd2
    exact (List.nodup_append.mp hnd2).2.2
  · intro l
    have htest := countLabel_split_test df f hf1.le l
    have htrain := countLabel_split_train df f l
    have hb := testCount_bounds f hf0.le (countLabel df l)
    have htc_le := testCount_le f hf1.le (countLabel df l)
    have hcast : ((countLabel df l - dataset.testCount f (countLabel df l) : Nat) : ℚ)
        = (countLabel df l : ℚ) - (dataset.testCount f (countLabel df l) : ℚ) :=
      Nat.cast_sub htc_le
    refine ⟨?_, ?_, ?_, ?_⟩
    · rw [htest]
      exact hb.1
    · rw [htest]
      exact hb.2
    · rw [htrain, hcast]
      have := hb.2
      nlinarith [hb.2]
    · rw [htrain, hcast]
      nlinarith [hb.1]

/-- Concrete record set for the split witness: two labels with distinct
row ids and at least two rows each. -/
def dfC6 : List Ticket :=
  [⟨0, "", 1⟩, ⟨1, "", 1⟩, ⟨2, "", 2⟩, ⟨3, "", 2⟩, ⟨4, "", 2⟩, ⟨5, "", 2⟩]

/-- Witness for C6 at a concrete input with test fraction one third. -/
theorem C6_split_spec_witness :
    (∀ l ∈ dfC6.map (fun r => r.label), 2 ≤ countLabel dfC6 l) ∧
    (0 < mkRat 1 3) ∧ (mkRat 1 3 < 1) ∧
    (dfC6.map (fun r => r.id)).Nodup ∧
    (((((dataset.split dfC6 (mkRat 1 3)).1 ++ (dataset.split dfC6 (mkRat 1 3)).2).map
      (fun r => r.id)).Perm (dfC6.map (fun r => r.id))) ∧
    ((dataset.split dfC6 (mkRat 1 3)).1.map (fun r => r.id)).Disjoint
      ((dataset.split dfC6 (mkRat 1 3)).2.map (fun r => r.id)) ∧
    ∀ l : Int,
      mkRat 1 3 * (countLabel dfC6 l : ℚ)
        ≤ (countLabel (dataset.split dfC6 (mkRat 1 3)).2 l : ℚ) ∧
      (countLabel (dataset.split dfC6 (mkRat 1 3)).2 l : ℚ)
        < mkRat 1 3 * (countLabel dfC6 l : ℚ) + 1 ∧
      (1 - mkRat 1 3) * (countLabel dfC6 l : ℚ) - 1
        < (countLabel (dataset.split dfC6 (mkRat 1 3)).1 l : ℚ) ∧
      (countLabel (dataset.split dfC6 (mkRat 1 3)).1 l : ℚ)
        ≤ (1 - mkRat 1 3) * (countLabel dfC6 l : ℚ)) :=
  ⟨by decide, by decide, by decide, by decide,
    C6_split_spec dfC6 (mkRat 1 3) (by decide) (by decide) (by decide) (by decide)⟩


